import Mathlib

/-!
Verification development for the dtrader-server ingestion core.

The TypeScript sources are shallowly embedded:
  * JS numbers holding prices/volumes are modelled as `ℚ` (the code performs
    only +, -, *, /, min, max and comparisons on them);
  * Unix-millisecond timestamps are modelled as `ℕ` (they are non-negative,
    and JS `%` agrees with `Nat.mod` on non-negative operands);
  * a JS `Map<number, number>` is modelled as an association list
    `List (ℚ × ℚ)` with `mapSet` (replace-or-append, as `Map.set`),
    `mapDelete` (as `Map.delete`) and `mapGet` (as `Map.get`);
  * `Array.prototype.sort` with a numeric comparator is modelled as the
    stable `List.insertionSort` with the corresponding total preorder;
  * `parseFloat` results are modelled as `Option ℚ` (`none` = `NaN`), and a
    wire-format order-book level (array pair, keyed object, or anything
    else) as the inductive `RawLevel`, mirroring the dynamic type tests in
    `OrderBookStore.sync`;
  * fallible operations return `Except`/`Option`; logging calls have no
    state effect and are dropped.
-/

/-! ## Order book (src/data/OrderBookStore.ts) -/

/-- One order-book level as carried by an incremental update
(`OrderBookLevel` in src/data/types.ts). -/
structure OrderBookLevel where
  price : ℚ
  amount : ℚ
deriving DecidableEq, Repr

/-- An incremental order-book update delivered over the WebSocket
(`OrderBookUpdate` in src/data/types.ts). -/
structure OrderBookUpdate where
  bids : List OrderBookLevel
  asks : List OrderBookLevel
  timestamp : ℕ
  updateId : ℤ
deriving DecidableEq, Repr

/-- A wire-format snapshot level: Gate.io may send `["price","amount"]`
pairs or `{price, amount}` objects; anything else is unknown.  `none`
components model `parseFloat` returning `NaN`. -/
inductive RawLevel where
  | arr (price amount : Option ℚ)
  | obj (price amount : Option ℚ)
  | other
deriving DecidableEq, Repr

/-- A fetched REST order-book snapshot (`getOrderBook` response). -/
structure RawOrderBook where
  id : ℤ
  bids : List RawLevel
  asks : List RawLevel
deriving DecidableEq, Repr

/-- The mutable state of `OrderBookStore`: the two price→volume maps plus
the bookkeeping fields.  `maxLevels` is the constructor parameter. -/
structure OBState where
  bids : List (ℚ × ℚ)
  asks : List (ℚ × ℚ)
  lastUpdateId : ℤ
  lastSyncTime : ℤ
  updateCount : ℕ
  maxLevels : ℕ
deriving DecidableEq, Repr

/-- `Map.get`: the value stored at key `k`, if any. -/
def mapGet (m : List (ℚ × ℚ)) (k : ℚ) : Option ℚ :=
  (m.find? (fun e => decide (e.1 = k))).map (fun e => e.2)

/-- `Map.set`: overwrite the entry at key `k` if present, else append. -/
def mapSet (m : List (ℚ × ℚ)) (k v : ℚ) : List (ℚ × ℚ) :=
  if m.any (fun e => decide (e.1 = k)) then
    m.map (fun e => if e.1 = k then (k, v) else e)
  else m ++ [(k, v)]

/-- `Map.delete`: drop the entry at key `k` (a no-op if absent). -/
def mapDelete (m : List (ℚ × ℚ)) (k : ℚ) : List (ℚ × ℚ) :=
  m.filter (fun e => decide (e.1 ≠ k))

/-- One step of `applyUpdate`'s per-level `forEach` body: volume zero
deletes the price, anything else sets it. -/
def applyLevel (m : List (ℚ × ℚ)) (l : OrderBookLevel) : List (ℚ × ℚ) :=
  if l.amount = 0 then mapDelete m l.price else mapSet m l.price l.amount

/-- `OrderBookStore.applyUpdate`: apply every bid and ask level in order,
bump `updateCount`, and set `lastUpdateId` unconditionally. -/
def applyUpdate (s : OBState) (u : OrderBookUpdate) : OBState :=
  { s with
    updateCount := s.updateCount + 1
    bids := u.bids.foldl applyLevel s.bids
    asks := u.asks.foldl applyLevel s.asks
    lastUpdateId := u.updateId }

/-- The level parser inside `sync`'s `forEach`: accept array pairs and
keyed objects whose two `parseFloat`s are not `NaN`; skip the rest. -/
def parseLevel : RawLevel → Option (ℚ × ℚ)
  | .arr (some p) (some a) => some (p, a)
  | .obj (some p) (some a) => some (p, a)
  | _ => none

/-- Loading one side in `sync`: start from the cleared map and `Map.set`
every successfully parsed level in order. -/
def loadLevels (levels : List RawLevel) : List (ℚ × ℚ) :=
  levels.foldl
    (fun m l =>
      match parseLevel l with
      | some (p, a) => mapSet m p a
      | none => m)
    []

/-- The successful tail of `sync`: wholesale replacement of both sides,
`lastUpdateId` from the snapshot and `lastSyncTime` from the clock. -/
def syncLoad (s : OBState) (raw : RawOrderBook) (now : ℤ) : OBState :=
  { s with
    bids := loadLevels raw.bids
    asks := loadLevels raw.asks
    lastUpdateId := raw.id
    lastSyncTime := now }

/-- `OrderBookStore.sync`: the fetch happens before any mutation, so a
failed fetch rethrows with the state untouched; a successful fetch
replaces the state via `syncLoad`.  The second component is the error
surfaced to the caller, if any. -/
def sync (s : OBState) (fetch : Except String RawOrderBook) (now : ℤ) :
    OBState × Option String :=
  match fetch with
  | .error e => (s, some e)
  | .ok raw => (syncLoad s raw now, none)

/-- Comparator used for bids: `(a, b) => b[0] - a[0]`, descending price. -/
def bidOrder (a b : ℚ × ℚ) : Prop := b.1 ≤ a.1

/-- Comparator used for asks: `(a, b) => a[0] - b[0]`, ascending price. -/
def askOrder (a b : ℚ × ℚ) : Prop := a.1 ≤ b.1

instance : DecidableRel bidOrder := fun a b => inferInstanceAs (Decidable (b.1 ≤ a.1))

instance : DecidableRel askOrder := fun a b => inferInstanceAs (Decidable (a.1 ≤ b.1))

instance : IsTotal (ℚ × ℚ) bidOrder := ⟨fun a b => le_total b.1 a.1⟩

instance : IsTotal (ℚ × ℚ) askOrder := ⟨fun a b => le_total a.1 b.1⟩

instance : IsTrans (ℚ × ℚ) bidOrder := ⟨fun _ _ _ h1 h2 => le_trans h2 h1⟩

instance : IsTrans (ℚ × ℚ) askOrder := ⟨fun _ _ _ h1 h2 => le_trans h1 h2⟩

/-- `OrderBookStore.getBids`: entries sorted by descending price, the
first `count` of them, as price/amount records. -/
def getBids (s : OBState) (count : ℕ) : List OrderBookLevel :=
  (((s.bids.insertionSort bidOrder).take count).map (fun e => ⟨e.1, e.2⟩))

/-- `OrderBookStore.getAsks`: entries sorted by ascending price, the
first `count` of them, as price/amount records. -/
def getAsks (s : OBState) (count : ℕ) : List OrderBookLevel :=
  (((s.asks.insertionSort askOrder).take count).map (fun e => ⟨e.1, e.2⟩))

/-- The result record of `OrderBookStore.getStats`. -/
structure OrderBookStats where
  bestBid : ℚ
  bestAsk : ℚ
  spread : ℚ
  spreadPercent : ℚ
  midPrice : ℚ
  bidVolume : ℚ
  askVolume : ℚ
  totalVolume : ℚ
  bidPercent : ℚ
  askPercent : ℚ
deriving DecidableEq, Repr

/-- `OrderBookStore.getStats`, translated clause by clause: the all-zero
50/50 record when either visible side is empty, otherwise best prices
from the sorted heads, spread/mid, and turnover-weighted pressure over
the visible depth. -/
def getStats (s : OBState) : OrderBookStats :=
  let bids := getBids s s.maxLevels
  let asks := getAsks s s.maxLevels
  if bids.length = 0 ∨ asks.length = 0 then
    { bestBid := 0, bestAsk := 0, spread := 0, spreadPercent := 0
      midPrice := 0, bidVolume := 0, askVolume := 0, totalVolume := 0
      bidPercent := 50, askPercent := 50 }
  else
    let bestBid : ℚ := (bids.headD ⟨0, 0⟩).price
    let bestAsk : ℚ := (asks.headD ⟨0, 0⟩).price
    let spread : ℚ := bestAsk - bestBid
    let midPrice : ℚ := (bestBid + bestAsk) / 2
    let spreadPercent : ℚ := if midPrice > 0 then spread / midPrice * 100 else 0
    let bidVolume : ℚ := bids.foldl (fun sum l => sum + l.price * l.amount) 0
    let askVolume : ℚ := asks.foldl (fun sum l => sum + l.price * l.amount) 0
    let totalVolume : ℚ := bidVolume + askVolume
    let bidPercent : ℚ := if totalVolume > 0 then bidVolume / totalVolume * 100 else 50
    let askPercent : ℚ := if totalVolume > 0 then askVolume / totalVolume * 100 else 50
    { bestBid := bestBid, bestAsk := bestAsk, spread := spread
      spreadPercent := spreadPercent, midPrice := midPrice
      bidVolume := bidVolume, askVolume := askVolume
      totalVolume := totalVolume, bidPercent := bidPercent
      askPercent := askPercent }

/-- The store right after construction: empty sides, zero ids. -/
def initialOB (maxLevels : ℕ) : OBState :=
  { bids := [], asks := [], lastUpdateId := 0, lastSyncTime := 0
    updateCount := 0, maxLevels := maxLevels }

/-- States reachable from a fresh store by successful `sync`s and
incremental `applyUpdate`s (a failed `sync` leaves the state as is). -/
inductive Reachable : OBState → Prop where
  | init (maxLevels : ℕ) : Reachable (initialOB maxLevels)
  | syncOk {s : OBState} (raw : RawOrderBook) (now : ℤ) :
      Reachable s → Reachable (syncLoad s raw now)
  | update {s : OBState} (u : OrderBookUpdate) :
      Reachable s → Reachable (applyUpdate s u)

/-- A wire level is zero-free when, if it parses at all, its parsed
volume is non-zero. -/
def levelZeroFree (l : RawLevel) : Prop :=
  ∀ e ∈ parseLevel l, e.2 ≠ 0

instance : DecidablePred levelZeroFree := fun l => by
  unfold levelZeroFree
  cases parseLevel l with
  | none => exact .isTrue (by simp)
  | some e => exact decidable_of_iff (e.2 ≠ 0) (by simp)

/-- A snapshot is zero-free when every level it parses has non-zero
volume. -/
def ZeroFreeRaw (raw : RawOrderBook) : Prop :=
  ∀ l ∈ raw.bids ++ raw.asks, levelZeroFree l

instance : DecidablePred ZeroFreeRaw := fun raw =>
  inferInstanceAs (Decidable (∀ l ∈ raw.bids ++ raw.asks, levelZeroFree l))

/-- Reachability restricted to runs whose snapshots are zero-free. -/
inductive ReachableNZ : OBState → Prop where
  | init (maxLevels : ℕ) : ReachableNZ (initialOB maxLevels)
  | syncOk {s : OBState} (raw : RawOrderBook) (now : ℤ) :
      ZeroFreeRaw raw → ReachableNZ s → ReachableNZ (syncLoad s raw now)
  | update {s : OBState} (u : OrderBookUpdate) :
      ReachableNZ s → ReachableNZ (applyUpdate s u)

/-! ## Candles (src/data/types.ts, src/data/CandleBuilder.ts) -/

/-- An OHLCV candle (`Candle` in src/data/types.ts).  The `open` field is
renamed `open_` because `open` is a Lean keyword. -/
structure Candle where
  timestamp : ℕ
  open_ : ℚ
  high : ℚ
  low : ℚ
  close : ℚ
  volume : ℚ
  quoteVolume : ℚ
deriving DecidableEq, Repr

/-- The three supported timeframes. -/
inductive Timeframe where
  | m1
  | m6
  | m24
deriving DecidableEq, Repr

/-- `TIMEFRAME_MS`: milliseconds per timeframe. -/
def TIMEFRAME_MS : Timeframe → ℕ
  | .m1 => 60 * 1000
  | .m6 => 6 * 60 * 1000
  | .m24 => 24 * 60 * 1000

/-- `AGGREGATION_COUNT["1m-to-6m"]`. -/
def AGGREGATION_COUNT_1to6 : ℕ := 6

/-- `AGGREGATION_COUNT["6m-to-24m"]`. -/
def AGGREGATION_COUNT_6to24 : ℕ := 4

/-- `CandleBuilder.aggregate`: first candle's timestamp and open, last
candle's close, max of highs, min of lows, summed volumes.  The source
only ever calls it on a full (hence non-empty) accumulator; on `[]` this
model returns a zero candle. -/
def aggregate : List Candle → Candle
  | [] => ⟨0, 0, 0, 0, 0, 0, 0⟩
  | c :: cs =>
    { timestamp := c.timestamp
      open_ := c.open_
      close := ((c :: cs).getLast (List.cons_ne_nil c cs)).close
      high := cs.foldl (fun m x => max m x.high) c.high
      low := cs.foldl (fun m x => min m x.low) c.low
      volume := (c :: cs).foldl (fun sum x => sum + x.volume) 0
      quoteVolume := (c :: cs).foldl (fun sum x => sum + x.quoteVolume) 0 }

/-- `CandleBuilder.isValidTimestamp`: divisibility by the timeframe. -/
def isValidTimestamp (ts : ℕ) (tf : Timeframe) : Prop :=
  ts % TIMEFRAME_MS tf = 0

instance : ∀ ts tf, Decidable (isValidTimestamp ts tf) := fun ts tf =>
  inferInstanceAs (Decidable (ts % TIMEFRAME_MS tf = 0))

/-- `CandleBuilder.isTimeAligned`: same divisibility test, used for the
next tier's boundary. -/
def isTimeAligned (ts : ℕ) (tf : Timeframe) : Prop :=
  ts % TIMEFRAME_MS tf = 0

instance : ∀ ts tf, Decidable (isTimeAligned ts tf) := fun ts tf =>
  inferInstanceAs (Decidable (ts % TIMEFRAME_MS tf = 0))

/-- The mutable state of `CandleBuilder`: the two accumulation buffers and
the last processed timestamps (gap bookkeeping).  The gap handler
`handleMissingCandles` only logs (its body is a TODO), so it has no state
effect here. -/
structure BuilderState where
  accumulator1m : List Candle
  accumulator6m : List Candle
  lastProcessed1m : Option ℕ
  lastProcessed6m : Option ℕ
deriving DecidableEq, Repr

/-- `CandleBuilder` right after construction. -/
def initialBuilder : BuilderState :=
  { accumulator1m := [], accumulator6m := []
    lastProcessed1m := none, lastProcessed6m := none }

/-- `CandleBuilder.handle6mCandle`: record the timestamp, push the candle,
and only when the candle sits on a 24m boundary: aggregate at exactly 4
buffered candles (emitting one 24m candle and clearing), or discard an
overfull buffer.  Returns the new state and the emitted 24m candles. -/
def handle6mCandle (s : BuilderState) (c : Candle) : BuilderState × List Candle :=
  let s1 : BuilderState :=
    { s with lastProcessed6m := some c.timestamp
             accumulator6m := s.accumulator6m ++ [c] }
  if ¬ isTimeAligned c.timestamp .m24 then (s1, [])
  else if s1.accumulator6m.length = AGGREGATION_COUNT_6to24 then
    let c24 := aggregate s1.accumulator6m
    ({ s1 with accumulator6m := [] }, [c24])
  else if s1.accumulator6m.length > AGGREGATION_COUNT_6to24 then
    ({ s1 with accumulator6m := [] }, [])
  else (s1, [])

/-- `CandleBuilder.handle1mCandle`: drop candles whose timestamp is not a
1m multiple; record the timestamp and push into the 1m buffer; return
early unless the candle sits on a 6m boundary; at exactly 6 buffered
candles aggregate, clear, and forward the 6m candle to `handle6mCandle`;
discard an overfull buffer.  Returns the new state, the emitted 6m
candles, and the emitted 24m candles. -/
def handle1mCandle (s : BuilderState) (c : Candle) :
    BuilderState × List Candle × List Candle :=
  if ¬ isValidTimestamp c.timestamp .m1 then (s, [], [])
  else
    let s1 : BuilderState :=
      { s with lastProcessed1m := some c.timestamp
               accumulator1m := s.accumulator1m ++ [c] }
    if ¬ isTimeAligned c.timestamp .m6 then (s1, [], [])
    else if s1.accumulator1m.length = AGGREGATION_COUNT_1to6 then
      let c6 := aggregate s1.accumulator1m
      let s2 : BuilderState := { s1 with accumulator1m := [] }
      let r := handle6mCandle s2 c6
      (r.1, [c6], r.2)
    else if s1.accumulator1m.length > AGGREGATION_COUNT_1to6 then
      ({ s1 with accumulator1m := [] }, [], [])
    else (s1, [], [])

/-- Feed a sequence of 1m candles into `handle1mCandle` in order,
collecting all emitted 6m and 24m candles. -/
def feed1m (s : BuilderState) (cs : List Candle) :
    BuilderState × List Candle × List Candle :=
  cs.foldl
    (fun acc c =>
      let r := handle1mCandle acc.1 c
      (r.1, acc.2.1 ++ r.2.1, acc.2.2 ++ r.2.2))
    (s, [], [])

/-! ## Candle store (src/data/CandleStore.ts) -/

/-- `CandleStore.bufferSizes`. -/
def bufferSizes : Timeframe → ℕ
  | .m1 => 500
  | .m6 => 240
  | .m24 => 120

/-- The mutable state of `CandleStore`: one buffer and one cumulative
counter per timeframe. -/
structure CandleStoreState where
  candles : Timeframe → List Candle
  totalCounts : Timeframe → ℕ

/-- A fresh `CandleStore`. -/
def initialCandleStore : CandleStoreState :=
  { candles := fun _ => [], totalCounts := fun _ => 0 }

/-- `CandleStore.getLast`. -/
def CandleStore.getLast (s : CandleStoreState) (tf : Timeframe) : Option Candle :=
  (s.candles tf).getLast?

/-- `CandleStore.isDuplicate`: the incoming candle's timestamp equals the
newest buffered one's. -/
def CandleStore.isDuplicate (s : CandleStoreState) (tf : Timeframe) (c : Candle) : Prop :=
  ∃ last ∈ CandleStore.getLast s tf, last.timestamp = c.timestamp

instance : ∀ s tf c, Decidable (CandleStore.isDuplicate s tf c) := fun s tf c => by
  unfold CandleStore.isDuplicate
  cases CandleStore.getLast s tf with
  | none => exact .isFalse (by simp)
  | some l => exact decidable_of_iff (l.timestamp = c.timestamp) (by simp)

/-- `CandleStore.add`: reject a duplicate, else append, bump the
cumulative counter, and evict the oldest candle on overflow. -/
def CandleStore.add (s : CandleStoreState) (tf : Timeframe) (c : Candle) :
    CandleStoreState :=
  if CandleStore.isDuplicate s tf c then s
  else
    let buffer0 := s.candles tf ++ [c]
    let buffer := if buffer0.length > bufferSizes tf then buffer0.tail else buffer0
    { candles := fun t => if t = tf then buffer else s.candles t
      totalCounts := fun t => if t = tf then s.totalCounts t + 1 else s.totalCounts t }

/-- Feed a sequence of `(timeframe, candle)` additions into
`CandleStore.add` in order. -/
def CandleStore.addAll (s : CandleStoreState) (l : List (Timeframe × Candle)) :
    CandleStoreState :=
  l.foldl (fun s p => CandleStore.add s p.1 p.2) s

/-- A run of additions in which no call is rejected as a duplicate (each
candle's timestamp differs from the buffer's newest at call time). -/
def CandleStore.allAccepted : CandleStoreState → List (Timeframe × Candle) → Prop
  | _, [] => True
  | s, p :: rest =>
    ¬ CandleStore.isDuplicate s p.1 p.2 ∧
      CandleStore.allAccepted (CandleStore.add s p.1 p.2) rest

/-! ## Tick store (src/data/TickStore.ts) -/

/-- A stored tick (`Tick` in src/data/types.ts). -/
structure Tick where
  symbol : String
  price : ℚ
  volume : ℚ
  change24h : ℚ
  high24h : ℚ
  low24h : ℚ
  timestamp : ℕ
deriving DecidableEq, Repr

/-- The mutable state of `TickStore`: the bounded tick buffer, the
cumulative tick counter, and the `maxSize` constructor parameter. -/
structure TickStoreState where
  maxSize : ℕ
  ticks : List Tick
  tickCount : ℕ
deriving DecidableEq, Repr

/-- A fresh `TickStore` of the given capacity. -/
def initialTickStore (maxSize : ℕ) : TickStoreState :=
  { maxSize := maxSize, ticks := [], tickCount := 0 }

/-- `TickStore.add`: always append and bump the counter; `shift()` the
oldest tick away when the buffer exceeds `maxSize`. -/
def TickStore.add (s : TickStoreState) (t : Tick) : TickStoreState :=
  let ticks0 := s.ticks ++ [t]
  let ticks := if ticks0.length > s.maxSize then ticks0.tail else ticks0
  { s with ticks := ticks, tickCount := s.tickCount + 1 }

/-- Feed a sequence of ticks into `TickStore.add` in order. -/
def TickStore.addAll (s : TickStoreState) (l : List Tick) : TickStoreState :=
  l.foldl TickStore.add s

/-! ## WebSocket session (src/exchange/GateioWebSocket.ts) -/

/-- `GATEIO.WS_CHANNELS.TICKERS`. -/
def CH_TICKERS : String := "spot.tickers"

/-- `GATEIO.WS_CHANNELS.ORDER_BOOK_UPDATE`. -/
def CH_ORDER_BOOK_UPDATE : String := "spot.order_book_update"

/-- Per-channel subscription status (`SubscriptionStatus`). -/
inductive SubStatus where
  | pending
  | subscribed
  | failed
deriving DecidableEq, Repr

/-- What the exchange does about one channel's subscribe request while
`waitForSubscription` polls: acknowledge it (the `subscribe` frame sets
the status to `subscribed`), reject it (an `error` frame sets the status
to `failed`), or answer nothing within the 5000 ms timeout. -/
inductive SubOutcome where
  | ack
  | nack
  | timeout
deriving DecidableEq, Repr

/-- The channel-status map, as an association list over channel names. -/
def setStatus (subs : List (String × SubStatus)) (ch : String) (st : SubStatus) :
    List (String × SubStatus) :=
  if subs.any (fun e => decide (e.1 = ch)) then
    subs.map (fun e => if e.1 = ch then (ch, st) else e)
  else subs ++ [(ch, st)]

/-- Status lookup in the channel-status map. -/
def getStatus (subs : List (String × SubStatus)) (ch : String) : Option SubStatus :=
  (subs.find? (fun e => decide (e.1 = ch))).map (fun e => e.2)

/-- `subscribeChannel` followed by `waitForSubscription`: mark the channel
`pending`, send the request, then poll until the status becomes
`subscribed` (resolve), becomes `failed` (reject), or the timeout
elapses (reject, status left `pending`). -/
def subscribeChannel (subs : List (String × SubStatus)) (ch : String)
    (o : SubOutcome) : List (String × SubStatus) × Except String Unit :=
  let subs1 := setStatus subs ch .pending
  match o with
  | .ack => (setStatus subs1 ch .subscribed, .ok ())
  | .nack => (setStatus subs1 ch .failed, .error ("subscription failed: " ++ ch))
  | .timeout => (subs1, .error ("subscription timeout: " ++ ch))

/-- `GateioWebSocket.subscribe`: throw when not connected; otherwise
`await subscribeChannel(TICKERS, ...)` then
`await subscribeChannel(ORDER_BOOK_UPDATE, ...)` — sequentially, so a
rejection from the first `await` propagates before the second channel is
ever attempted.  Returns the channels actually attempted, the final
status map, and the overall outcome. -/
def subscribe (isConnected : Bool) (subs : List (String × SubStatus))
    (o1 o2 : SubOutcome) :
    List String × List (String × SubStatus) × Except String Unit :=
  if ¬ isConnected then ([], subs, .error "WebSocket not connected")
  else
    match subscribeChannel subs CH_TICKERS o1 with
    | (subs1, .error e) => ([CH_TICKERS], subs1, .error e)
    | (subs1, .ok _) =>
      match subscribeChannel subs1 CH_ORDER_BOOK_UPDATE o2 with
      | (subs2, .error e) => ([CH_TICKERS, CH_ORDER_BOOK_UPDATE], subs2, .error e)
      | (subs2, .ok _) => ([CH_TICKERS, CH_ORDER_BOOK_UPDATE], subs2, .ok ())

/-- The reconnect-relevant part of `GateioWSConfig` after the constructor
fills the defaults. -/
structure WSConfig where
  reconnectInterval : ℕ
  maxReconnectInterval : ℕ
  maxReconnectAttempts : ℕ
deriving DecidableEq, Repr

/-- The reconnect-relevant mutable state of `GateioWebSocket`. -/
structure WSReconnectState where
  reconnectAttempts : ℕ
  currentReconnectInterval : ℕ
deriving DecidableEq, Repr

/-- The state set up by the constructor:
`currentReconnectInterval = config.reconnectInterval`, zero attempts. -/
def initialWSState (cfg : WSConfig) : WSReconnectState :=
  { reconnectAttempts := 0, currentReconnectInterval := cfg.reconnectInterval }

/-- `GateioWebSocket.scheduleReconnect`: stop (scheduling nothing) once a
positive attempt cap is reached; otherwise bump the attempt counter,
double the interval up to `maxReconnectInterval`, and schedule the
reconnect after that delay (returned as `some delay`). -/
def scheduleReconnect (cfg : WSConfig) (s : WSReconnectState) :
    WSReconnectState × Option ℕ :=
  if cfg.maxReconnectAttempts > 0 ∧ s.reconnectAttempts ≥ cfg.maxReconnectAttempts then
    (s, none)
  else
    let interval := min (s.currentReconnectInterval * 2) cfg.maxReconnectInterval
    ({ reconnectAttempts := s.reconnectAttempts + 1
       currentReconnectInterval := interval }, some interval)

/-- `GateioWebSocket.handleOpen`, reconnect-relevant effects: reset the
attempt counter to zero and the backoff interval to the base value. -/
def handleOpen (cfg : WSConfig) (_s : WSReconnectState) : WSReconnectState :=
  { reconnectAttempts := 0, currentReconnectInterval := cfg.reconnectInterval }

/-- The delays of up to `n` consecutively scheduled reconnects (the run
stops early once the attempt cap silences `scheduleReconnect`). -/
def reconnectDelays (cfg : WSConfig) : WSReconnectState → ℕ → List ℕ
  | _, 0 => []
  | s, n + 1 =>
    match scheduleReconnect cfg s with
    | (_, none) => []
    | (s', some d) => d :: reconnectDelays cfg s' n

/-! ## Helper lemmas: reconnect backoff -/

/-- Every delay a run of `scheduleReconnect` calls schedules is clipped to
the configured ceiling. -/
theorem reconnectDelays_le_ceiling (cfg : WSConfig) :
    ∀ (n : ℕ) (s : WSReconnectState),
      ∀ d ∈ reconnectDelays cfg s n, d ≤ cfg.maxReconnectInterval := by
  intro n
  induction n with
  | zero => intro s d hd; simp [reconnectDelays] at hd
  | succ k ih =>
    intro s d hd
    unfold reconnectDelays scheduleReconnect at hd
    by_cases hcap :
        cfg.maxReconnectAttempts > 0 ∧ s.reconnectAttempts ≥ cfg.maxReconnectAttempts
    · simp [hcap] at hd
    · simp [hcap] at hd
      rcases hd with h | h
      · omega
      · exact ih _ d h

/-- A delay already at most the ceiling is at most the next scheduled
delay: the scheduled-delay sequence is a non-decreasing chain. -/
theorem reconnectDelays_chain (cfg : WSConfig) :
    ∀ (n : ℕ) (a c : ℕ), c ≤ cfg.maxReconnectInterval →
      List.Chain' (· ≤ ·) (c :: reconnectDelays cfg ⟨a, c⟩ n) := by
  intro n
  induction n with
  | zero => intro a c _; simp [reconnectDelays]
  | succ k ih =>
    intro a c hc
    unfold reconnectDelays scheduleReconnect
    by_cases hcap : cfg.maxReconnectAttempts > 0 ∧ a ≥ cfg.maxReconnectAttempts
    · simp [hcap]
    · simp only [hcap, if_false, gt_iff_lt, ge_iff_le, if_neg hcap]
      refine List.Chain'.cons ?_ (ih (a + 1) _ (min_le_right _ _))
      omega

/-! ## C8 / C4 / C10 theorems -/

/-- C8: across a run of consecutive connection failures the scheduled
backoff delays are non-decreasing and never exceed the configured
ceiling, and one successful open (`handleOpen`) resets the stored
interval to the base interval and the attempt counter to zero. -/
theorem reconnect_backoff_monotone_bounded_reset
    (cfg : WSConfig) (s : WSReconnectState) (n : ℕ) :
    List.Chain' (· ≤ ·) (reconnectDelays cfg s n) ∧
    (∀ d ∈ reconnectDelays cfg s n, d ≤ cfg.maxReconnectInterval) ∧
    (handleOpen cfg s).currentReconnectInterval = cfg.reconnectInterval ∧
    (handleOpen cfg s).reconnectAttempts = 0 := by
  refine ⟨?_, reconnectDelays_le_ceiling cfg n s, rfl, rfl⟩
  cases n with
  | zero => simp [reconnectDelays]
  | succ k =>
    unfold reconnectDelays scheduleReconnect
    by_cases hcap :
        cfg.maxReconnectAttempts > 0 ∧ s.reconnectAttempts ≥ cfg.maxReconnectAttempts
    · simp [hcap]
    · simp only [hcap, if_neg hcap]
      exact reconnectDelays_chain cfg k (s.reconnectAttempts + 1) _ (min_le_right _ _)

/-- C4: when the snapshot fetch inside `sync` fails, the error is raised
to the caller and the previous state — both side maps, `lastUpdateId`
and `lastSyncTime` — is left entirely unchanged. -/
theorem sync_fetch_failure_keeps_state (s : OBState) (e : String) (now : ℤ) :
    (sync s (.error e) now).1.bids = s.bids ∧
    (sync s (.error e) now).1.asks = s.asks ∧
    (sync s (.error e) now).1.lastUpdateId = s.lastUpdateId ∧
    (sync s (.error e) now).1.lastSyncTime = s.lastSyncTime ∧
    (sync s (.error e) now).1 = s ∧
    (sync s (.error e) now).2 = some e :=
  ⟨rfl, rfl, rfl, rfl, rfl, rfl⟩

/-- C10: the candle synthesized by `aggregate` carries as its timestamp
exactly the first input candle's timestamp, for every non-empty input
list. -/
theorem aggregate_timestamp_is_first (c : Candle) (cs : List Candle) :
    (aggregate (c :: cs)).timestamp = c.timestamp :=
  rfl

/-! ## Helper lemmas: association-list maps -/

/-- Replacing the entries at key `k` does not change `find?` at a key
`q ≠ k`. -/
theorem assoc_find_replace_ne {α β : Type} [DecidableEq α]
    (k : α) (v : β) (q : α) (hq : q ≠ k) :
    ∀ m : List (α × β),
      (m.map (fun e => if e.1 = k then (k, v) else e)).find?
          (fun e => decide (e.1 = q)) =
        m.find? (fun e => decide (e.1 = q)) := by
  intro m
  induction m with
  | nil => rfl
  | cons e m ih =>
    by_cases hek : e.1 = k
    · simp only [List.map_cons, if_pos hek]
      rw [List.find?_cons_of_neg _ (by simp; exact fun h => hq h.symm),
        List.find?_cons_of_neg _ (by simp [hek]; exact fun h => hq h.symm), ih]
    · simp only [List.map_cons, if_neg hek]
      by_cases heq : e.1 = q
      · rw [List.find?_cons_of_pos _ (by simp [heq]),
          List.find?_cons_of_pos _ (by simp [heq])]
      · rw [List.find?_cons_of_neg _ (by simp [heq]),
          List.find?_cons_of_neg _ (by simp [heq]), ih]

/-- If some entry has key `k`, then after replacing the entries at `k`
with `(k, v)`, `find?` at `k` returns `(k, v)`. -/
theorem assoc_find_replace_self {α β : Type} [DecidableEq α] (k : α) (v : β) :
    ∀ m : List (α × β), (∃ e ∈ m, e.1 = k) →
      (m.map (fun e => if e.1 = k then (k, v) else e)).find?
          (fun e => decide (e.1 = k)) = some (k, v) := by
  intro m
  induction m with
  | nil => rintro ⟨e, he, -⟩; exact absurd he (List.not_mem_nil e)
  | cons e m ih =>
    rintro ⟨f, hf, hfk⟩
    by_cases hek : e.1 = k
    · simp only [List.map_cons, if_pos hek]
      rw [List.find?_cons_of_pos _ (by simp)]
    · simp only [List.map_cons, if_neg hek]
      rw [List.find?_cons_of_neg _ (by simp [hek])]
      rcases List.mem_cons.mp hf with rfl | hfm
      · exact absurd hfk hek
      · exact ih ⟨f, hfm, hfk⟩

/-- Lookup after a replace-or-append `Map.set`: the key written reads the
new value, every other key is unchanged. -/
theorem assoc_get_set {α β : Type} [DecidableEq α]
    (m : List (α × β)) (k : α) (v : β) (q : α) :
    ((if m.any (fun e => decide (e.1 = k)) then
        m.map (fun e => if e.1 = k then (k, v) else e)
      else m ++ [(k, v)]).find? (fun e => decide (e.1 = q))).map (fun e => e.2) =
      if q = k then some v
      else (m.find? (fun e => decide (e.1 = q))).map (fun e => e.2) := by
  by_cases hmem : m.any (fun e => decide (e.1 = k)) = true
  · rw [if_pos hmem]
    by_cases hqk : q = k
    · subst hqk
      have hex : ∃ e ∈ m, e.1 = q := by
        obtain ⟨e, he, hek⟩ := List.any_eq_true.mp hmem
        exact ⟨e, he, of_decide_eq_true hek⟩
      rw [assoc_find_replace_self q v m hex]
      simp
    · rw [assoc_find_replace_ne k v q hqk m, if_neg hqk]
  · rw [if_neg hmem]
    have hall : ∀ e ∈ m, e.1 ≠ k := by
      intro e he hek
      exact hmem (List.any_eq_true.mpr ⟨e, he, decide_eq_true hek⟩)
    by_cases hqk : q = k
    · subst hqk
      have hnone : m.find? (fun e => decide (e.1 = q)) = none :=
        List.find?_eq_none.mpr fun e he => by simpa using hall e he
      rw [List.find?_append, hnone, if_pos rfl]
      simp
    · have hsingle : ([(k, v)].find? (fun e => decide (e.1 = q))) = none := by
        simp; exact fun h => hqk h.symm
      rw [List.find?_append, hsingle, if_neg hqk]
      simp

/-- Lookup after a `Map.delete` via `filter`: the deleted key reads
nothing, every other key is unchanged. -/
theorem assoc_get_delete {α β : Type} [DecidableEq α]
    (k q : α) :
    ∀ m : List (α × β),
      ((m.filter (fun e => decide (e.1 ≠ k))).find?
          (fun e => decide (e.1 = q))).map (fun e => e.2) =
        if q = k then none
        else (m.find? (fun e => decide (e.1 = q))).map (fun e => e.2) := by
  intro m
  induction m with
  | nil => simp
  | cons e m ih =>
    by_cases hek : e.1 = k
    · rw [List.filter_cons_of_neg (by simp [hek])]
      rw [ih]
      by_cases hqk : q = k
      · simp [hqk]
      · rw [if_neg hqk, if_neg hqk,
          List.find?_cons_of_neg _ (by simp [hek]; exact fun h => hqk h.symm)]
    · rw [List.filter_cons_of_pos (by simp [hek])]
      by_cases heq : e.1 = q
      · have hqk : ¬ q = k := fun h => hek (heq.symm ▸ h)
        rw [List.find?_cons_of_pos _ (by simp [heq]),
          if_neg hqk, List.find?_cons_of_pos _ (by simp [heq])]
      · rw [List.find?_cons_of_neg _ (by simp [heq]), ih]
        by_cases hqk : q = k
        · simp [hqk]
        · rw [if_neg hqk, if_neg hqk, List.find?_cons_of_neg _ (by simp [heq])]

/-- `mapGet` after `mapSet`. -/
theorem mapGet_mapSet (m : List (ℚ × ℚ)) (k v q : ℚ) :
    mapGet (mapSet m k v) q = if q = k then some v else mapGet m q := by
  unfold mapGet mapSet
  exact assoc_get_set m k v q

/-- `mapGet` after `mapDelete`. -/
theorem mapGet_mapDelete (m : List (ℚ × ℚ)) (k q : ℚ) :
    mapGet (mapDelete m k) q = if q = k then none else mapGet m q := by
  unfold mapGet mapDelete
  exact assoc_get_delete k q m

/-- `getStatus` after `setStatus`. -/
theorem getStatus_setStatus (subs : List (String × SubStatus)) (ch : String)
    (st : SubStatus) (ch' : String) :
    getStatus (setStatus subs ch st) ch' =
      if ch' = ch then some st else getStatus subs ch' := by
  unfold getStatus setStatus
  exact assoc_get_set subs ch st ch'

/-! ## Helper lemmas: incremental update semantics -/

/-- The net effect of a list of update levels on the stored volume at
price `q`: `none` if no level touches `q`, otherwise what the last
touching level leaves there (`none` inside = removed, `some a` =
stored). -/
def levelEffect (q : ℚ) : List OrderBookLevel → Option (Option ℚ)
  | [] => none
  | l :: ls =>
    (levelEffect q ls).or
      (if l.price = q then some (if l.amount = 0 then none else some l.amount)
       else none)

/-- Lookup after one `applyLevel` step: a zero-volume level removes its
price, any other level overwrites it; other prices are untouched. -/
theorem mapGet_applyLevel (m : List (ℚ × ℚ)) (l : OrderBookLevel) (q : ℚ) :
    mapGet (applyLevel m l) q =
      if l.price = q then (if l.amount = 0 then none else some l.amount)
      else mapGet m q := by
  unfold applyLevel
  by_cases hz : l.amount = 0
  · rw [if_pos hz, mapGet_mapDelete]
    by_cases hq : l.price = q
    · simp [hq, hz]
    · rw [if_neg hq, if_neg (fun h => hq h.symm)]
  · rw [if_neg hz, mapGet_mapSet]
    by_cases hq : l.price = q
    · simp [hq, hz]
    · rw [if_neg hq, if_neg (fun h => hq h.symm)]

/-- Lookup after folding a whole list of levels: determined by
`levelEffect`, with the prior stored value as the default. -/
theorem mapGet_foldl_applyLevel (q : ℚ) :
    ∀ (ls : List OrderBookLevel) (m : List (ℚ × ℚ)),
      mapGet (ls.foldl applyLevel m) q = (levelEffect q ls).getD (mapGet m q) := by
  intro ls
  induction ls with
  | nil => intro m; simp [levelEffect]
  | cons l ls ih =>
    intro m
    rw [List.foldl_cons, ih, levelEffect]
    cases heff : levelEffect q ls with
    | some r => simp [heff]
    | none =>
      simp only [heff, Option.none_or]
      rw [mapGet_applyLevel]
      by_cases hq : l.price = q
      · simp [hq]
      · simp [hq]

/-- `levelEffect` over an append: the later block wins when it has an
effect. -/
theorem levelEffect_append (q : ℚ) :
    ∀ xs ys : List OrderBookLevel,
      levelEffect q (xs ++ ys) = (levelEffect q ys).or (levelEffect q xs) := by
  intro xs
  induction xs with
  | nil => intro ys; simp [levelEffect]
  | cons x xs ih =>
    intro ys
    rw [List.cons_append, levelEffect, ih, levelEffect, Option.or_assoc]

/-- Apply a sequence of updates in stream order. -/
def applyUpdates (s : OBState) (us : List OrderBookUpdate) : OBState :=
  us.foldl applyUpdate s

/-- C5: in `applyUpdate`, a level with zero volume removes its price from
the touched side (a no-op when absent), a level with non-zero volume
sets/overwrites that price, later levels in the update overriding earlier
ones, and `lastUpdateId` is set to the update's id unconditionally; in
particular, applying the bid level `(100, 0)` to the book with bids
`{100 ↦ 1, 99 ↦ 2}` and asks `{101 ↦ 1}` removes price 100 and leaves
99 as the best bid. -/
theorem applyUpdate_level_semantics :
    (∀ (s : OBState) (u : OrderBookUpdate) (q : ℚ),
        mapGet (applyUpdate s u).bids q
          = (levelEffect q u.bids).getD (mapGet s.bids q) ∧
        mapGet (applyUpdate s u).asks q
          = (levelEffect q u.asks).getD (mapGet s.asks q) ∧
        (applyUpdate s u).lastUpdateId = u.updateId) ∧
    ((applyUpdate
        { bids := [(100, 1), (99, 2)], asks := [(101, 1)], lastUpdateId := 7
          lastSyncTime := 0, updateCount := 0, maxLevels := 20 }
        { bids := [{ price := 100, amount := 0 }], asks := []
          timestamp := 0, updateId := 8 }).bids = [(99, 2)] ∧
      (getStats (applyUpdate
        { bids := [(100, 1), (99, 2)], asks := [(101, 1)], lastUpdateId := 7
          lastSyncTime := 0, updateCount := 0, maxLevels := 20 }
        { bids := [{ price := 100, amount := 0 }], asks := []
          timestamp := 0, updateId := 8 })).bestBid = 99) := by
  constructor
  · intro s u q
    exact ⟨mapGet_foldl_applyLevel q u.bids s.bids,
      mapGet_foldl_applyLevel q u.asks s.asks, rfl⟩
  · constructor
    · decide
    · decide

/-! ## Helper lemmas: disjoint diffs commute -/

/-- Every price an update touches, on either side. -/
def updPrices (u : OrderBookUpdate) : List ℚ :=
  u.bids.map (fun l => l.price) ++ u.asks.map (fun l => l.price)

/-- Two updates touch disjoint price sets. -/
def DisjointUpd (u v : OrderBookUpdate) : Prop :=
  ∀ q ∈ updPrices u, q ∉ updPrices v

instance : ∀ u v, Decidable (DisjointUpd u v) := fun u v =>
  inferInstanceAs (Decidable (∀ q ∈ updPrices u, q ∉ updPrices v))

/-- Price-set disjointness is symmetric. -/
theorem disjointUpd_symm : Symmetric DisjointUpd :=
  fun _ _ h q hqv hqu => h q hqu hqv

/-- The concatenation, in stream order, of one side's levels over a
sequence of updates. -/
def concatLevels (g : OrderBookUpdate → List OrderBookLevel) :
    List OrderBookUpdate → List OrderBookLevel
  | [] => []
  | u :: us => g u ++ concatLevels g us

/-- Levels that never mention price `q` have no effect at `q`. -/
theorem levelEffect_eq_none (q : ℚ) :
    ∀ ls : List OrderBookLevel, (∀ l ∈ ls, l.price ≠ q) →
      levelEffect q ls = none := by
  intro ls
  induction ls with
  | nil => intro _; rfl
  | cons l ls ih =>
    intro h
    rw [levelEffect, ih (fun x hx => h x (List.mem_cons_of_mem l hx)),
      if_neg (h l (List.mem_cons_self l ls)), Option.none_or]

/-- An effect at price `q` can only come from a level at price `q`. -/
theorem levelEffect_some_mem (q : ℚ) :
    ∀ ls : List OrderBookLevel, levelEffect q ls ≠ none →
      ∃ l ∈ ls, l.price = q := by
  intro ls
  induction ls with
  | nil => intro h; exact absurd rfl h
  | cons l ls ih =>
    intro h
    by_cases hl : l.price = q
    · exact ⟨l, List.mem_cons_self l ls, hl⟩
    · rw [levelEffect, if_neg hl, Option.or_none] at h
      obtain ⟨x, hx, hxq⟩ := ih h
      exact ⟨x, List.mem_cons_of_mem l hx, hxq⟩

/-- Permuting pairwise price-disjoint updates does not change the net
effect of one side's concatenated levels at any price. -/
theorem levelEffect_concat_perm (g : OrderBookUpdate → List OrderBookLevel)
    (hg : ∀ u, ∀ l ∈ g u, l.price ∈ updPrices u)
    {us vs : List OrderBookUpdate} (hp : us.Perm vs) :
    us.Pairwise DisjointUpd → ∀ q : ℚ,
      levelEffect q (concatLevels g us) = levelEffect q (concatLevels g vs) := by
  induction hp with
  | nil => intro _ _; rfl
  | cons x _ ih =>
    intro hpw q
    rw [concatLevels, concatLevels, levelEffect_append, levelEffect_append,
      ih hpw.of_cons q]
  | swap x y l =>
    intro hpw q
    have hxy : DisjointUpd y x := (List.pairwise_cons.mp hpw).1 x (List.mem_cons_self x l)
    rw [concatLevels, concatLevels, concatLevels, concatLevels,
      levelEffect_append, levelEffect_append, levelEffect_append,
      levelEffect_append, Option.or_assoc, Option.or_assoc]
    congr 1
    by_cases hx : levelEffect q (g x) = none
    · rw [hx, Option.or_none, Option.none_or]
    · obtain ⟨l', hl', hpl⟩ := levelEffect_some_mem q (g x) hx
      have hqx : q ∈ updPrices x := hpl ▸ hg x l' hl'
      have hy : levelEffect q (g y) = none :=
        levelEffect_eq_none q (g y)
          (fun l hlm hplq => hxy q (hplq ▸ hg y l hlm) hqx)
      rw [hy, Option.or_none, Option.none_or]
  | trans h12 _ ih12 ih23 =>
    intro hpw q
    have hpw2 := (h12.pairwise_iff (fun h => disjointUpd_symm h)).mp hpw
    exact (ih12 hpw q).trans (ih23 hpw2 q)

/-- Splitting `getD` across `Option.or`. -/
theorem option_or_getD {α : Type} (a b : Option α) (d : α) :
    (a.or b).getD d = a.getD (b.getD d) := by
  cases a <;> simp [Option.or]

/-- Lookup of the bid side after a sequence of updates: the last level at
the queried price across the whole stream wins. -/
theorem mapGet_applyUpdates_bids (q : ℚ) :
    ∀ (us : List OrderBookUpdate) (s : OBState),
      mapGet (applyUpdates s us).bids q
        = (levelEffect q (concatLevels (fun u => u.bids) us)).getD
            (mapGet s.bids q) := by
  intro us
  induction us with
  | nil => intro s; simp [applyUpdates, concatLevels, levelEffect]
  | cons u us ih =>
    intro s
    rw [applyUpdates, List.foldl_cons]
    have : (us.foldl applyUpdate (applyUpdate s u)) = applyUpdates (applyUpdate s u) us := rfl
    rw [this, ih, concatLevels, levelEffect_append, option_or_getD]
    congr 1
    exact mapGet_foldl_applyLevel q u.bids s.bids

/-- Lookup of the ask side after a sequence of updates: the last level at
the queried price across the whole stream wins. -/
theorem mapGet_applyUpdates_asks (q : ℚ) :
    ∀ (us : List OrderBookUpdate) (s : OBState),
      mapGet (applyUpdates s us).asks q
        = (levelEffect q (concatLevels (fun u => u.asks) us)).getD
            (mapGet s.asks q) := by
  intro us
  induction us with
  | nil => intro s; simp [applyUpdates, concatLevels, levelEffect]
  | cons u us ih =>
    intro s
    rw [applyUpdates, List.foldl_cons]
    have : (us.foldl applyUpdate (applyUpdate s u)) = applyUpdates (applyUpdate s u) us := rfl
    rw [this, ih, concatLevels, levelEffect_append, option_or_getD]
    congr 1
    exact mapGet_foldl_applyLevel q u.asks s.asks

/-- C6: applying a diff sequence in stream order is deterministic with
last-write-wins per price (the stored volume, or absence for volume
zero, at any price is decided by the last level at that price in the
concatenated stream), and reordering pairwise price-disjoint diffs
leaves both final side mappings unchanged. -/
theorem diffs_disjoint_commute_lww :
    (∀ (s : OBState) (us vs : List OrderBookUpdate),
        us.Perm vs → us.Pairwise DisjointUpd → ∀ q : ℚ,
          mapGet (applyUpdates s us).bids q = mapGet (applyUpdates s vs).bids q ∧
          mapGet (applyUpdates s us).asks q = mapGet (applyUpdates s vs).asks q) ∧
    (∀ (s : OBState) (us : List OrderBookUpdate) (q : ℚ),
        mapGet (applyUpdates s us).bids q
          = (levelEffect q (concatLevels (fun u => u.bids) us)).getD
              (mapGet s.bids q) ∧
        mapGet (applyUpdates s us).asks q
          = (levelEffect q (concatLevels (fun u => u.asks) us)).getD
              (mapGet s.asks q)) := by
  constructor
  · intro s us vs hp hpw q
    constructor
    · rw [mapGet_applyUpdates_bids q us s, mapGet_applyUpdates_bids q vs s,
        levelEffect_concat_perm (fun u => u.bids)
          (fun u l hl => List.mem_append_left _ (List.mem_map.mpr ⟨l, hl, rfl⟩))
          hp hpw q]
    · rw [mapGet_applyUpdates_asks q us s, mapGet_applyUpdates_asks q vs s,
        levelEffect_concat_perm (fun u => u.asks)
          (fun u l hl => List.mem_append_right _ (List.mem_map.mpr ⟨l, hl, rfl⟩))
          hp hpw q]
  · intro s us q
    exact ⟨mapGet_applyUpdates_bids q us s, mapGet_applyUpdates_asks q us s⟩

/-- A diff touching only bid price 100. -/
def demoUpdA : OrderBookUpdate :=
  { bids := [{ price := 100, amount := 1 }], asks := [], timestamp := 0, updateId := 1 }

/-- A diff touching bid price 200 and ask price 300. -/
def demoUpdB : OrderBookUpdate :=
  { bids := [{ price := 200, amount := 5 }], asks := [{ price := 300, amount := 2 }]
    timestamp := 0, updateId := 2 }

/-- Witness for C6: two concrete disjoint diffs commute on a concrete
lookup. -/
theorem diffs_disjoint_commute_lww_witness :
    [demoUpdA, demoUpdB].Perm [demoUpdB, demoUpdA] ∧
    [demoUpdA, demoUpdB].Pairwise DisjointUpd ∧
    mapGet (applyUpdates (initialOB 20) [demoUpdA, demoUpdB]).bids 100
      = mapGet (applyUpdates (initialOB 20) [demoUpdB, demoUpdA]).bids 100 :=
  ⟨List.Perm.swap demoUpdB demoUpdA [], by decide,
    (diffs_disjoint_commute_lww.1 (initialOB 20) [demoUpdA, demoUpdB]
      [demoUpdB, demoUpdA] (List.Perm.swap demoUpdB demoUpdA [])
      (by decide) 100).1⟩

/-! ## C2 theorems -/

/-- Counterexample to C2 as stated: with the session connected, if the
first channel (tickers) fails its subscription, `subscribe()` rejects at
the first `await` and the order-book channel is never attempted — even
though its own subscription would have succeeded (`.ack`).  The other
requested channel therefore does not proceed independently. -/
theorem subscribe_first_failure_skips_second :
    (subscribe true [] .nack .ack).1 = [CH_TICKERS] ∧
    CH_ORDER_BOOK_UPDATE ∉ (subscribe true [] .nack .ack).1 ∧
    (subscribe true [] .nack .ack).2.2
      = Except.error ("subscription failed: " ++ CH_TICKERS) := by
  refine ⟨rfl, ?_, rfl⟩
  intro h
  rw [show (subscribe true [] .nack .ack).1 = [CH_TICKERS] from rfl] at h
  have : CH_ORDER_BOOK_UPDATE = CH_TICKERS := by
    simpa using h
  exact absurd this (by decide)

/-- C2 (amended): channel subscriptions are attempted strictly in order
(tickers first, then order-book updates); a failure — explicit `nack` or
acknowledgment timeout — makes `subscribe()` fail for that channel, and
channels after the failing one are not attempted, while a channel that
already succeeded keeps its `subscribed` status. -/
theorem subscribe_failure_isolation (subs : List (String × SubStatus))
    (o1 o2 : SubOutcome) :
    (o1 ≠ .ack →
        (subscribe true subs o1 o2).1 = [CH_TICKERS] ∧
        ∃ e, (subscribe true subs o1 o2).2.2 = Except.error e) ∧
    (o2 ≠ .ack →
        (subscribe true subs .ack o2).1 = [CH_TICKERS, CH_ORDER_BOOK_UPDATE] ∧
        (∃ e, (subscribe true subs .ack o2).2.2 = Except.error e) ∧
        getStatus (subscribe true subs .ack o2).2.1 CH_TICKERS
          = some .subscribed) ∧
    ((subscribe true subs .ack .ack).2.2 = Except.ok () ∧
      getStatus (subscribe true subs .ack .ack).2.1 CH_TICKERS
        = some .subscribed ∧
      getStatus (subscribe true subs .ack .ack).2.1 CH_ORDER_BOOK_UPDATE
        = some .subscribed) := by
  have hne : ¬ (CH_TICKERS = CH_ORDER_BOOK_UPDATE) := by decide
  have hne' : ¬ (CH_ORDER_BOOK_UPDATE = CH_TICKERS) := by decide
  refine ⟨?_, ?_, ?_⟩
  · intro h1
    cases o1 with
    | ack => exact absurd rfl h1
    | nack => exact ⟨rfl, ⟨_, rfl⟩⟩
    | timeout => exact ⟨rfl, ⟨_, rfl⟩⟩
  · intro h2
    cases o2 with
    | ack => exact absurd rfl h2
    | nack =>
      refine ⟨rfl, ⟨_, rfl⟩, ?_⟩
      show getStatus
        (setStatus (setStatus
          (setStatus (setStatus subs CH_TICKERS .pending) CH_TICKERS .subscribed)
          CH_ORDER_BOOK_UPDATE .pending) CH_ORDER_BOOK_UPDATE .failed)
        CH_TICKERS = some .subscribed
      rw [getStatus_setStatus, if_neg hne, getStatus_setStatus, if_neg hne,
        getStatus_setStatus, if_pos rfl]
    | timeout =>
      refine ⟨rfl, ⟨_, rfl⟩, ?_⟩
      show getStatus
        (setStatus
          (setStatus (setStatus subs CH_TICKERS .pending) CH_TICKERS .subscribed)
          CH_ORDER_BOOK_UPDATE .pending)
        CH_TICKERS = some .subscribed
      rw [getStatus_setStatus, if_neg hne, getStatus_setStatus, if_pos rfl]
  · refine ⟨rfl, ?_, ?_⟩
    · show getStatus
        (setStatus (setStatus
          (setStatus (setStatus subs CH_TICKERS .pending) CH_TICKERS .subscribed)
          CH_ORDER_BOOK_UPDATE .pending) CH_ORDER_BOOK_UPDATE .subscribed)
        CH_TICKERS = some .subscribed
      rw [getStatus_setStatus, if_neg hne, getStatus_setStatus, if_neg hne,
        getStatus_setStatus, if_pos rfl]
    · show getStatus
        (setStatus (setStatus
          (setStatus (setStatus subs CH_TICKERS .pending) CH_TICKERS .subscribed)
          CH_ORDER_BOOK_UPDATE .pending) CH_ORDER_BOOK_UPDATE .subscribed)
        CH_ORDER_BOOK_UPDATE = some .subscribed
      rw [getStatus_setStatus, if_pos rfl]

/-- Witness for C2 (amended): concrete failing first channel. -/
theorem subscribe_failure_isolation_witness :
    SubOutcome.nack ≠ SubOutcome.ack ∧
    ((subscribe true [] .nack .ack).1 = [CH_TICKERS] ∧
      ∃ e, (subscribe true [] .nack .ack).2.2 = Except.error e) :=
  ⟨by decide, (subscribe_failure_isolation [] .nack .ack).1 (by decide)⟩

/-! ## Helper lemmas: order-book side invariants -/

/-- The invariant of one side map: keys are pairwise distinct and no
stored volume is zero. -/
def SideInvariant (m : List (ℚ × ℚ)) : Prop :=
  (m.map Prod.fst).Nodup ∧ ∀ e ∈ m, e.2 ≠ 0

/-- `mapSet` keeps the keys pairwise distinct. -/
theorem nodup_keys_mapSet (m : List (ℚ × ℚ)) (k v : ℚ)
    (h : (m.map Prod.fst).Nodup) : ((mapSet m k v).map Prod.fst).Nodup := by
  unfold mapSet
  by_cases hmem : m.any (fun e => decide (e.1 = k)) = true
  · rw [if_pos hmem]
    have hkeys : (m.map (fun e => if e.1 = k then (k, v) else e)).map Prod.fst
        = m.map Prod.fst := by
      rw [List.map_map]
      refine List.map_congr_left ?_
      intro e _
      by_cases hek : e.1 = k
      · simp [hek]
      · simp [hek]
    rw [hkeys]
    exact h
  · rw [if_neg hmem, List.map_append]
    refine List.Nodup.append h (List.nodup_singleton k) ?_
    intro a ha hak
    obtain ⟨e, he, rfl⟩ := List.mem_map.mp ha
    have : e.1 = k := by simpa using hak
    exact hmem (List.any_eq_true.mpr ⟨e, he, decide_eq_true this⟩)

/-- `mapSet` with a non-zero value keeps all stored volumes non-zero. -/
theorem nonzero_mapSet (m : List (ℚ × ℚ)) (k v : ℚ) (hv : v ≠ 0)
    (h : ∀ e ∈ m, e.2 ≠ 0) : ∀ e ∈ mapSet m k v, e.2 ≠ 0 := by
  unfold mapSet
  intro e he
  by_cases hmem : m.any (fun e => decide (e.1 = k)) = true
  · rw [if_pos hmem] at he
    obtain ⟨x, hx, hxe⟩ := List.mem_map.mp he
    by_cases hxk : x.1 = k
    · rw [if_pos hxk] at hxe
      rw [← hxe]
      exact hv
    · rw [if_neg hxk] at hxe
      rw [← hxe]
      exact h x hx
  · rw [if_neg hmem] at he
    rcases List.mem_append.mp he with hm | hs
    · exact h e hm
    · have : e = (k, v) := by simpa using hs
      rw [this]
      exact hv

/-- `mapDelete` preserves the side invariant outright. -/
theorem sideInvariant_mapDelete (m : List (ℚ × ℚ)) (k : ℚ)
    (h : SideInvariant m) : SideInvariant (mapDelete m k) := by
  refine ⟨?_, ?_⟩
  · exact ((List.filter_sublist m).map Prod.fst).nodup h.1
  · intro e he
    exact h.2 e (List.mem_of_mem_filter he)

/-- `applyLevel` preserves the side invariant (the set branch only ever
stores the level's non-zero volume). -/
theorem sideInvariant_applyLevel (m : List (ℚ × ℚ)) (l : OrderBookLevel)
    (h : SideInvariant m) : SideInvariant (applyLevel m l) := by
  unfold applyLevel
  by_cases hz : l.amount = 0
  · rw [if_pos hz]
    exact sideInvariant_mapDelete m l.price h
  · rw [if_neg hz]
    exact ⟨nodup_keys_mapSet m l.price l.amount h.1,
      nonzero_mapSet m l.price l.amount hz h.2⟩

/-- Folding a whole update side preserves the side invariant. -/
theorem sideInvariant_foldl_applyLevel :
    ∀ (ls : List OrderBookLevel) (m : List (ℚ × ℚ)), SideInvariant m →
      SideInvariant (ls.foldl applyLevel m) := by
  intro ls
  induction ls with
  | nil => intro m h; exact h
  | cons l ls ih =>
    intro m h
    rw [List.foldl_cons]
    exact ih (applyLevel m l) (sideInvariant_applyLevel m l h)

/-- Loading zero-free snapshot levels into an invariant-satisfying
accumulator preserves the invariant. -/
theorem sideInvariant_load_aux :
    ∀ (levels : List RawLevel) (m : List (ℚ × ℚ)), SideInvariant m →
      (∀ l ∈ levels, levelZeroFree l) →
      SideInvariant (levels.foldl
        (fun m l =>
          match parseLevel l with
          | some (p, a) => mapSet m p a
          | none => m) m) := by
  intro levels
  induction levels with
  | nil => intro m h _; exact h
  | cons l levels ih =>
    intro m h hz
    rw [List.foldl_cons]
    refine ih _ ?_ (fun x hx => hz x (List.mem_cons_of_mem l hx))
    cases hp : parseLevel l with
    | none => simpa [hp] using h
    | some e =>
      have ha : e.2 ≠ 0 := hz l (List.mem_cons_self l levels) e (by rw [hp]; rfl)
      simp only [hp]
      exact ⟨nodup_keys_mapSet m e.1 e.2 h.1, nonzero_mapSet m e.1 e.2 ha h.2⟩

/-- A zero-free snapshot side loads into an invariant-satisfying map. -/
theorem sideInvariant_loadLevels (levels : List RawLevel)
    (hz : ∀ l ∈ levels, levelZeroFree l) : SideInvariant (loadLevels levels) :=
  sideInvariant_load_aux levels [] ⟨List.nodup_nil, by simp⟩ hz

/-- Both sides of every zero-free-reachable state satisfy the side
invariant. -/
theorem reachableNZ_invariant (s : OBState) (h : ReachableNZ s) :
    SideInvariant s.bids ∧ SideInvariant s.asks := by
  induction h with
  | init n => exact ⟨⟨by simp [initialOB], by simp [initialOB]⟩,
      ⟨by simp [initialOB], by simp [initialOB]⟩⟩
  | syncOk raw now hz _ _ =>
    refine ⟨sideInvariant_loadLevels raw.bids ?_, sideInvariant_loadLevels raw.asks ?_⟩
    · exact fun l hl => hz l (List.mem_append_left _ hl)
    · exact fun l hl => hz l (List.mem_append_right _ hl)
  | update u _ ih =>
    exact ⟨sideInvariant_foldl_applyLevel u.bids _ ih.1,
      sideInvariant_foldl_applyLevel u.asks _ ih.2⟩

/-- With pairwise-distinct keys, `getBids` reads strictly descending
prices. -/
theorem getBids_strict_desc (s : OBState) (count : ℕ)
    (h : (s.bids.map Prod.fst).Nodup) :
    (getBids s count).Pairwise (fun a b => b.price < a.price) := by
  unfold getBids
  rw [List.pairwise_map]
  have hsorted : (s.bids.insertionSort bidOrder).Pairwise bidOrder :=
    List.sorted_insertionSort bidOrder s.bids
  have hperm : (s.bids.insertionSort bidOrder).Perm s.bids :=
    List.perm_insertionSort bidOrder s.bids
  have hnodup : ((s.bids.insertionSort bidOrder).map Prod.fst).Nodup :=
    ((hperm.map Prod.fst).nodup_iff).mpr h
  have hne : (s.bids.insertionSort bidOrder).Pairwise
      (fun a b => Prod.fst a ≠ Prod.fst b) := List.pairwise_map.mp hnodup
  have hstrict : (s.bids.insertionSort bidOrder).Pairwise
      (fun a b : ℚ × ℚ => b.1 < a.1) := by
    refine (hsorted.and hne).imp ?_
    rintro a b ⟨hle, hneq⟩
    exact lt_of_le_of_ne hle (fun hba => hneq hba.symm)
  exact hstrict.sublist (List.take_sublist count _)

/-- With pairwise-distinct keys, `getAsks` reads strictly ascending
prices. -/
theorem getAsks_strict_asc (s : OBState) (count : ℕ)
    (h : (s.asks.map Prod.fst).Nodup) :
    (getAsks s count).Pairwise (fun a b => a.price < b.price) := by
  unfold getAsks
  rw [List.pairwise_map]
  have hsorted : (s.asks.insertionSort askOrder).Pairwise askOrder :=
    List.sorted_insertionSort askOrder s.asks
  have hperm : (s.asks.insertionSort askOrder).Perm s.asks :=
    List.perm_insertionSort askOrder s.asks
  have hnodup : ((s.asks.insertionSort askOrder).map Prod.fst).Nodup :=
    ((hperm.map Prod.fst).nodup_iff).mpr h
  have hne : (s.asks.insertionSort askOrder).Pairwise
      (fun a b => Prod.fst a ≠ Prod.fst b) := List.pairwise_map.mp hnodup
  have hstrict : (s.asks.insertionSort askOrder).Pairwise
      (fun a b : ℚ × ℚ => a.1 < b.1) := by
    refine (hsorted.and hne).imp ?_
    rintro a b ⟨hle, hneq⟩
    exact lt_of_le_of_ne hle hneq
  exact hstrict.sublist (List.take_sublist count _)

/-! ## C3 theorems -/

/-- A snapshot carrying a zero-volume bid level. -/
def zeroVolRaw : RawOrderBook :=
  { id := 1, bids := [RawLevel.arr (some 100) (some 0)]
    asks := [RawLevel.arr (some 101) (some 1)] }

/-- Counterexample to C3 as stated: `sync` stores parsed snapshot levels
without filtering zero volumes, so the state reached from the empty book
by one successful `sync` whose snapshot carries the bid level
`[100, 0]` stores price 100 with volume exactly 0. -/
theorem orderbook_zero_volume_is_reachable :
    ¬ (∀ s : OBState, Reachable s →
        (∀ e ∈ s.bids, e.2 ≠ 0) ∧ (∀ e ∈ s.asks, e.2 ≠ 0)) := by
  intro hclaim
  have hr : Reachable (syncLoad (initialOB 20) zeroVolRaw 0) :=
    Reachable.syncOk zeroVolRaw 0 (Reachable.init 20)
  have hmem : ((100 : ℚ), (0 : ℚ)) ∈ (syncLoad (initialOB 20) zeroVolRaw 0).bids := by
    decide
  exact (hclaim _ hr).1 _ hmem rfl

/-- C3 (amended): over runs whose snapshots never carry a parsed level
with volume zero, every reachable state stores no zero-volume level on
either side (`applyUpdate` alone never does), and reading any number of
bids/asks always yields strictly descending/ascending prices. -/
theorem orderbook_reachable_invariant (s : OBState) (h : ReachableNZ s) :
    (∀ e ∈ s.bids, e.2 ≠ 0) ∧ (∀ e ∈ s.asks, e.2 ≠ 0) ∧
    (∀ count, (getBids s count).Pairwise (fun a b => b.price < a.price)) ∧
    (∀ count, (getAsks s count).Pairwise (fun a b => a.price < b.price)) := by
  obtain ⟨hb, ha⟩ := reachableNZ_invariant s h
  exact ⟨hb.2, ha.2, fun count => getBids_strict_desc s count hb.1,
    fun count => getAsks_strict_asc s count ha.1⟩

/-- A zero-free demo snapshot: bids 100 and 99, ask 101. -/
def demoRaw : RawOrderBook :=
  { id := 5
    bids := [RawLevel.arr (some 100) (some 1), RawLevel.arr (some 99) (some 2)]
    asks := [RawLevel.arr (some 101) (some 1)] }

/-- Witness for C3 (amended): a concrete zero-free-reachable state. -/
theorem orderbook_reachable_invariant_witness :
    ReachableNZ (syncLoad (initialOB 20) demoRaw 0) ∧
    (∀ e ∈ (syncLoad (initialOB 20) demoRaw 0).bids, e.2 ≠ 0) :=
  have hr : ReachableNZ (syncLoad (initialOB 20) demoRaw 0) :=
    ReachableNZ.syncOk demoRaw 0 (by decide) (ReachableNZ.init 20)
  ⟨hr, (orderbook_reachable_invariant _ hr).1⟩

/-! ## C9 theorem -/

/-- The demo order-book state of the spec's concrete scenario: bids
`{100 ↦ 1, 99 ↦ 2}`, asks `{101 ↦ 1}`. -/
def demoOB : OBState :=
  { bids := [(100, 1), (99, 2)], asks := [(101, 1)]
    lastUpdateId := 5, lastSyncTime := 0, updateCount := 0, maxLevels := 20 }

/-- C9: with a positive depth and both sides non-empty, `getStats`
returns the highest bid price as `bestBid`, the lowest ask price as
`bestAsk`, `spread = bestAsk - bestBid`, `midPrice` their average, and
the spread percentage relative to mid; on the demo state it yields
`bestBid = 100`, `bestAsk = 101`, `spread = 1`, `midPrice = 100.5`; and
whenever either side is empty it returns the defined all-zero record
with both pressure percentages at 50. -/
theorem getStats_spec :
    (∀ s : OBState, 0 < s.maxLevels → s.bids ≠ [] → s.asks ≠ [] →
      ((getStats s).bestBid ∈ s.bids.map Prod.fst ∧
        (∀ p ∈ s.bids.map Prod.fst, p ≤ (getStats s).bestBid)) ∧
      ((getStats s).bestAsk ∈ s.asks.map Prod.fst ∧
        (∀ p ∈ s.asks.map Prod.fst, (getStats s).bestAsk ≤ p)) ∧
      (getStats s).spread = (getStats s).bestAsk - (getStats s).bestBid ∧
      (getStats s).midPrice = ((getStats s).bestBid + (getStats s).bestAsk) / 2 ∧
      (0 < (getStats s).midPrice →
        (getStats s).spreadPercent
          = (getStats s).spread / (getStats s).midPrice * 100)) ∧
    ((getStats demoOB).bestBid = 100 ∧ (getStats demoOB).bestAsk = 101 ∧
      (getStats demoOB).spread = 1 ∧ (getStats demoOB).midPrice = 201 / 2) ∧
    (∀ s : OBState, s.bids = [] ∨ s.asks = [] →
      getStats s = ⟨0, 0, 0, 0, 0, 0, 0, 0, 50, 50⟩) := by
  refine ⟨?_, ?_, ?_⟩
  · intro s hN hb ha
    obtain ⟨k, hmax⟩ : ∃ k, s.maxLevels = k + 1 := ⟨s.maxLevels - 1, by omega⟩
    have hpermb : (s.bids.insertionSort bidOrder).Perm s.bids :=
      List.perm_insertionSort bidOrder s.bids
    have hsortb : (s.bids.insertionSort bidOrder).Pairwise bidOrder :=
      List.sorted_insertionSort bidOrder s.bids
    have hlbne : s.bids.insertionSort bidOrder ≠ [] := by
      intro h0
      exact hb (List.Perm.eq_nil (h0 ▸ hpermb.symm))
    obtain ⟨b0, bt, hconsb⟩ : ∃ x t, s.bids.insertionSort bidOrder = x :: t := by
      cases hcb : s.bids.insertionSort bidOrder with
      | nil => exact absurd hcb hlbne
      | cons x t => exact ⟨x, t, rfl⟩
    have hperma : (s.asks.insertionSort askOrder).Perm s.asks :=
      List.perm_insertionSort askOrder s.asks
    have hsorta : (s.asks.insertionSort askOrder).Pairwise askOrder :=
      List.sorted_insertionSort askOrder s.asks
    have hlane : s.asks.insertionSort askOrder ≠ [] := by
      intro h0
      exact ha (List.Perm.eq_nil (h0 ▸ hperma.symm))
    obtain ⟨a0, at', hconsa⟩ : ∃ x t, s.asks.insertionSort askOrder = x :: t := by
      cases hca : s.asks.insertionSort askOrder with
      | nil => exact absurd hca hlane
      | cons x t => exact ⟨x, t, rfl⟩
    have hgb : getBids s s.maxLevels
        = (⟨b0.1, b0.2⟩ : OrderBookLevel) :: (bt.take k).map (fun e => ⟨e.1, e.2⟩) := by
      unfold getBids
      rw [hconsb, hmax, List.take_succ_cons, List.map_cons]
    have hga : getAsks s s.maxLevels
        = (⟨a0.1, a0.2⟩ : OrderBookLevel) :: (at'.take k).map (fun e => ⟨e.1, e.2⟩) := by
      unfold getAsks
      rw [hconsa, hmax, List.take_succ_cons, List.map_cons]
    have hcond : ¬ ((getBids s s.maxLevels).length = 0 ∨ (getAsks s s.maxLevels).length = 0) := by
      rw [hgb, hga]
      simp
    have hbb : (getStats s).bestBid = b0.1 := by
      simp only [getStats]
      rw [if_neg hcond, hgb]
      rfl
    have hba : (getStats s).bestAsk = a0.1 := by
      simp only [getStats]
      rw [if_neg hcond, hga]
      rfl
    have hsp : (getStats s).spread = a0.1 - b0.1 := by
      simp only [getStats]
      rw [if_neg hcond, hgb, hga]
      rfl
    have hmid : (getStats s).midPrice = (b0.1 + a0.1) / 2 := by
      simp only [getStats]
      rw [if_neg hcond, hgb, hga]
      rfl
    have hsps : (getStats s).spreadPercent
        = if (b0.1 + a0.1) / 2 > 0
          then (a0.1 - b0.1) / ((b0.1 + a0.1) / 2) * 100 else 0 := by
      simp only [getStats]
      rw [if_neg hcond, hgb, hga]
      rfl
    have hmemb0 : b0 ∈ s.bids :=
      hpermb.mem_iff.mp (by rw [hconsb]; exact List.mem_cons_self b0 bt)
    have hmema0 : a0 ∈ s.asks :=
      hperma.mem_iff.mp (by rw [hconsa]; exact List.mem_cons_self a0 at')
    refine ⟨⟨?_, ?_⟩, ⟨?_, ?_⟩, ?_, ?_, ?_⟩
    · rw [hbb]
      exact List.mem_map.mpr ⟨b0, hmemb0, rfl⟩
    · intro p hp
      rw [hbb]
      obtain ⟨e, he, rfl⟩ := List.mem_map.mp hp
      have hesort : e ∈ s.bids.insertionSort bidOrder := hpermb.mem_iff.mpr he
      rw [hconsb] at hesort
      rcases List.mem_cons.mp hesort with rfl | het
      · exact le_refl _
      · exact (List.pairwise_cons.mp (hconsb ▸ hsortb)).1 e het
    · rw [hba]
      exact List.mem_map.mpr ⟨a0, hmema0, rfl⟩
    · intro p hp
      rw [hba]
      obtain ⟨e, he, rfl⟩ := List.mem_map.mp hp
      have hesort : e ∈ s.asks.insertionSort askOrder := hperma.mem_iff.mpr he
      rw [hconsa] at hesort
      rcases List.mem_cons.mp hesort with rfl | het
      · exact le_refl _
      · exact (List.pairwise_cons.mp (hconsa ▸ hsorta)).1 e het
    · rw [hsp, hba, hbb]
    · rw [hmid, hba, hbb]
    · intro hpos
      rw [hmid] at hpos
      rw [hsps, if_pos hpos, hsp, hmid]
  · have hb' : getBids demoOB demoOB.maxLevels = [⟨100, 1⟩, ⟨99, 2⟩] := by rfl
    have ha' : getAsks demoOB demoOB.maxLevels = [⟨101, 1⟩] := by rfl
    have hcond : ¬ ((getBids demoOB demoOB.maxLevels).length = 0 ∨
        (getAsks demoOB demoOB.maxLevels).length = 0) := by
      rw [hb', ha']
      simp
    refine ⟨?_, ?_, ?_, ?_⟩
    · simp only [getStats]
      rw [if_neg hcond, hb']
      norm_num
    · simp only [getStats]
      rw [if_neg hcond, ha']
      norm_num
    · simp only [getStats]
      rw [if_neg hcond, hb', ha']
      norm_num
    · simp only [getStats]
      rw [if_neg hcond, hb', ha']
      norm_num
  · intro s hcase
    rcases hcase with hc | hc
    · simp [getStats, getBids, hc, List.insertionSort]
    · simp [getStats, getAsks, hc, List.insertionSort]

/-- Witness for C9: the demo state discharges the hypotheses. -/
theorem getStats_spec_witness :
    0 < demoOB.maxLevels ∧ demoOB.bids ≠ [] ∧ demoOB.asks ≠ [] ∧
    ((getStats demoOB).bestBid ∈ demoOB.bids.map Prod.fst ∧
      (∀ p ∈ demoOB.bids.map Prod.fst, p ≤ (getStats demoOB).bestBid)) :=
  ⟨by decide, by decide, by decide,
    (getStats_spec.1 demoOB (by decide) (by decide) (by decide)).1⟩

/-! ## Helper lemmas: bounded buffers -/

/-- `TickStore.add` never changes the capacity. -/
theorem TickStore.add_maxSize (s : TickStoreState) (t : Tick) :
    (TickStore.add s t).maxSize = s.maxSize := rfl

/-- `TickStore.add` always increments the cumulative counter. -/
theorem TickStore.add_tickCount (s : TickStoreState) (t : Tick) :
    (TickStore.add s t).tickCount = s.tickCount + 1 := rfl

/-- `TickStore.add` keeps the buffer within capacity. -/
theorem tickStore_add_length (s : TickStoreState) (t : Tick)
    (h : s.ticks.length ≤ s.maxSize) :
    (TickStore.add s t).ticks.length ≤ s.maxSize := by
  simp only [TickStore.add]
  by_cases hc : (s.ticks ++ [t]).length > s.maxSize
  · rw [if_pos hc]
    simp only [List.length_tail, List.length_append, List.length_singleton]
    omega
  · rw [if_neg hc]
    simp only [List.length_append, List.length_singleton] at hc ⊢
    omega

/-- The run invariant of `TickStore.addAll`: capacity constant, counter
counts every call, buffer stays within capacity. -/
theorem tickStore_run (l : List Tick) :
    ∀ s : TickStoreState,
      (TickStore.addAll s l).maxSize = s.maxSize ∧
      (TickStore.addAll s l).tickCount = s.tickCount + l.length ∧
      (s.ticks.length ≤ s.maxSize →
        (TickStore.addAll s l).ticks.length ≤ s.maxSize) := by
  induction l with
  | nil => intro s; exact ⟨rfl, by simp [TickStore.addAll], fun h => h⟩
  | cons t l ih =>
    intro s
    have hstep : TickStore.addAll s (t :: l) = TickStore.addAll (TickStore.add s t) l := rfl
    obtain ⟨hm, hcnt, hlen⟩ := ih (TickStore.add s t)
    refine ⟨by rw [hstep, hm, TickStore.add_maxSize], ?_, ?_⟩
    · rw [hstep, hcnt, TickStore.add_tickCount]
      simp
      omega
    · intro hle
      rw [hstep]
      have := hlen (by rw [TickStore.add_maxSize]; exact tickStore_add_length s t hle)
      rw [TickStore.add_maxSize] at this
      exact this

/-- `CandleStore.add` keeps every buffer within its capacity. -/
theorem candleStore_add_length (s : CandleStoreState) (tf : Timeframe) (c : Candle)
    (tf' : Timeframe) (h : (s.candles tf').length ≤ bufferSizes tf') :
    ((CandleStore.add s tf c).candles tf').length ≤ bufferSizes tf' := by
  simp only [CandleStore.add]
  by_cases hdup : CandleStore.isDuplicate s tf c
  · rw [if_pos hdup]
    exact h
  · rw [if_neg hdup]
    simp only []
    by_cases ht : tf' = tf
    · rw [if_pos ht]
      subst ht
      by_cases hc : (s.candles tf' ++ [c]).length > bufferSizes tf'
      · rw [if_pos hc]
        simp only [List.length_tail, List.length_append, List.length_singleton]
        omega
      · rw [if_neg hc]
        simp only [List.length_append, List.length_singleton] at hc ⊢
        omega
    · rw [if_neg ht]
      exact h

/-- `CandleStore.add` on a non-duplicate bumps exactly the touched
timeframe's counter. -/
theorem CandleStore.add_totalCounts (s : CandleStoreState) (tf : Timeframe)
    (c : Candle) (tf' : Timeframe) (h : ¬ CandleStore.isDuplicate s tf c) :
    (CandleStore.add s tf c).totalCounts tf'
      = if tf' = tf then s.totalCounts tf' + 1 else s.totalCounts tf' := by
  simp only [CandleStore.add]
  rw [if_neg h]

/-- Capacity invariant of a whole `CandleStore.addAll` run. -/
theorem candleStore_capacity_run :
    ∀ (l : List (Timeframe × Candle)) (s : CandleStoreState),
      (∀ tf, (s.candles tf).length ≤ bufferSizes tf) →
      ∀ tf, ((CandleStore.addAll s l).candles tf).length ≤ bufferSizes tf := by
  intro l
  induction l with
  | nil => intro s h tf; exact h tf
  | cons p l ih =>
    intro s h tf
    exact ih (CandleStore.add s p.1 p.2)
      (fun tf' => candleStore_add_length s p.1 p.2 tf' (h tf')) tf

/-- Counter bookkeeping of an all-accepted `CandleStore.addAll` run. -/
theorem candleStore_counts_run :
    ∀ (l : List (Timeframe × Candle)) (s : CandleStoreState),
      CandleStore.allAccepted s l →
      ∀ tf, (CandleStore.addAll s l).totalCounts tf
        = s.totalCounts tf + (l.filter (fun p => decide (p.1 = tf))).length := by
  intro l
  induction l with
  | nil => intro s _ tf; simp [CandleStore.addAll]
  | cons p l ih =>
    intro s hacc tf
    obtain ⟨hnd, hrest⟩ := hacc
    have hstep : CandleStore.addAll s (p :: l)
        = CandleStore.addAll (CandleStore.add s p.1 p.2) l := rfl
    rw [hstep, ih (CandleStore.add s p.1 p.2) hrest tf,
      CandleStore.add_totalCounts s p.1 p.2 tf hnd]
    by_cases hp : p.1 = tf
    · rw [if_pos hp.symm, List.filter_cons]
      simp [hp]
      omega
    · rw [if_neg (fun h => hp h.symm), List.filter_cons]
      simp [hp]

/-! ## C7 theorems -/

/-- A fixed candle used to exercise the duplicate check. -/
def dupCandle : Candle := ⟨720000, 1, 1, 1, 1, 1, 1⟩

/-- Counterexample to C7 as stated: `CandleStore.add` rejects a candle
whose timestamp equals the newest buffered one's and does not count it,
so after K = 2 additions of the same-timestamp candle the cumulative
counter reads 1, not 2. -/
theorem candleStore_duplicate_skips_count :
    (CandleStore.addAll initialCandleStore
        [(Timeframe.m6, dupCandle), (Timeframe.m6, dupCandle)]).totalCounts
      Timeframe.m6 = 1 ∧ (1 : ℕ) ≠ 2 := by
  constructor
  · decide
  · decide

/-- C7 (amended): every buffer stays within its capacity after any
sequence of additions; `TickStore`'s cumulative counter equals the
number of `add()` calls unconditionally, while `CandleStore`'s equals
the number of additions for that timeframe provided no call was rejected
as a duplicate. -/
theorem bounded_buffers_capacity_total :
    (∀ (n : ℕ) (ts : List Tick),
        (TickStore.addAll (initialTickStore n) ts).ticks.length ≤ n ∧
        (TickStore.addAll (initialTickStore n) ts).tickCount = ts.length) ∧
    (∀ (l : List (Timeframe × Candle)) (tf : Timeframe),
        ((CandleStore.addAll initialCandleStore l).candles tf).length
          ≤ bufferSizes tf) ∧
    (∀ l : List (Timeframe × Candle),
        CandleStore.allAccepted initialCandleStore l →
        ∀ tf, (CandleStore.addAll initialCandleStore l).totalCounts tf
          = (l.filter (fun p => decide (p.1 = tf))).length) := by
  refine ⟨?_, ?_, ?_⟩
  · intro n ts
    obtain ⟨hm, hcnt, hlen⟩ := tickStore_run ts (initialTickStore n)
    exact ⟨hlen (by simp [initialTickStore]), by simpa [initialTickStore] using hcnt⟩
  · intro l tf
    exact candleStore_capacity_run l initialCandleStore
      (fun tf' => by simp [initialCandleStore]) tf
  · intro l hacc tf
    simpa [initialCandleStore] using candleStore_counts_run l initialCandleStore hacc tf

/-- Witness for C7 (amended): a single accepted addition is counted. -/
theorem bounded_buffers_capacity_total_witness :
    CandleStore.allAccepted initialCandleStore [(Timeframe.m6, dupCandle)] ∧
    (CandleStore.addAll initialCandleStore
        [(Timeframe.m6, dupCandle)]).totalCounts Timeframe.m6
      = ([((Timeframe.m6 : Timeframe), dupCandle)].filter
          (fun p => decide (p.1 = Timeframe.m6))).length :=
  have hacc : CandleStore.allAccepted initialCandleStore [(Timeframe.m6, dupCandle)] :=
    ⟨by decide, trivial⟩
  ⟨hacc, bounded_buffers_capacity_total.2.2 [(Timeframe.m6, dupCandle)] hacc Timeframe.m6⟩

/-! ## Helper lemmas: candle cascade -/

/-- A 1m candle with a valid timestamp that does not sit on a 6m boundary
is only buffered: state pushed, nothing emitted. -/
theorem handle1m_push_only (s : BuilderState) (c : Candle)
    (hv : isValidTimestamp c.timestamp .m1)
    (hna : ¬ isTimeAligned c.timestamp .m6) :
    handle1mCandle s c =
      ({ s with lastProcessed1m := some c.timestamp
                accumulator1m := s.accumulator1m ++ [c] }, [], []) := by
  simp only [handle1mCandle]
  rw [if_neg (not_not_intro hv), if_pos hna]

/-! ## C1 theorems -/

/-- A fixed-shape 1m candle at a given timestamp. -/
def cAt (ts : ℕ) : Candle := ⟨ts, 1, 2, 0, 1, 1, 1⟩

/-- Counterexample to C1 as stated: six temporally contiguous 1m candles
starting at the 6m-aligned timestamp 0 (every timestamp a multiple of
60000, each successive one +60000) produce no 6m output at all — the
boundary check fires on the window's first candle, when only one candle
is buffered, and never again — although all six candles sit in the
accumulator afterwards. -/
theorem handle1m_aligned_start_no_emit :
    (feed1m initialBuilder
        [cAt 0, cAt 60000, cAt 120000, cAt 180000, cAt 240000, cAt 300000]).2.1
      = [] ∧
    (feed1m initialBuilder
        [cAt 0, cAt 60000, cAt 120000, cAt 180000, cAt 240000,
          cAt 300000]).1.accumulator1m.length = 6 := by
  constructor
  · decide
  · decide

/-- C1 (amended): six temporally contiguous 1m candles whose run ends on
a 6m boundary (first timestamp `≡ 60000 (mod 360000)`) produce, from a
fresh builder, exactly one 6m candle — with open from the first input,
close from the last, max/min of highs/lows, summed volumes, and the
first input's timestamp — after which the 1m accumulator is cleared and
the output is forwarded to the 6m tier's handler (which records its
timestamp and buffers it); no 24m candle is emitted. -/
theorem handle1m_six_contiguous_boundary_end
    (k : ℕ) (c0 c1 c2 c3 c4 c5 : Candle)
    (h0 : c0.timestamp = 360000 * k + 60000)
    (h1 : c1.timestamp = 360000 * k + 120000)
    (h2 : c2.timestamp = 360000 * k + 180000)
    (h3 : c3.timestamp = 360000 * k + 240000)
    (h4 : c4.timestamp = 360000 * k + 300000)
    (h5 : c5.timestamp = 360000 * k + 360000) :
    feed1m initialBuilder [c0, c1, c2, c3, c4, c5]
      = (⟨[], [aggregate [c0, c1, c2, c3, c4, c5]], some c5.timestamp,
            some c0.timestamp⟩,
          [aggregate [c0, c1, c2, c3, c4, c5]], []) ∧
    (aggregate [c0, c1, c2, c3, c4, c5]).timestamp = c0.timestamp ∧
    (aggregate [c0, c1, c2, c3, c4, c5]).open_ = c0.open_ ∧
    (aggregate [c0, c1, c2, c3, c4, c5]).close = c5.close ∧
    (aggregate [c0, c1, c2, c3, c4, c5]).high
      = max (max (max (max (max c0.high c1.high) c2.high) c3.high) c4.high) c5.high ∧
    (aggregate [c0, c1, c2, c3, c4, c5]).low
      = min (min (min (min (min c0.low c1.low) c2.low) c3.low) c4.low) c5.low ∧
    (aggregate [c0, c1, c2, c3, c4, c5]).volume
      = c0.volume + c1.volume + c2.volume + c3.volume + c4.volume + c5.volume ∧
    (aggregate [c0, c1, c2, c3, c4, c5]).quoteVolume
      = c0.quoteVolume + c1.quoteVolume + c2.quoteVolume + c3.quoteVolume
        + c4.quoteVolume + c5.quoteVolume := by
  have hv0 : isValidTimestamp c0.timestamp .m1 := by
    simp only [isValidTimestamp, TIMEFRAME_MS, h0]; omega
  have hv1 : isValidTimestamp c1.timestamp .m1 := by
    simp only [isValidTimestamp, TIMEFRAME_MS, h1]; omega
  have hv2 : isValidTimestamp c2.timestamp .m1 := by
    simp only [isValidTimestamp, TIMEFRAME_MS, h2]; omega
  have hv3 : isValidTimestamp c3.timestamp .m1 := by
    simp only [isValidTimestamp, TIMEFRAME_MS, h3]; omega
  have hv4 : isValidTimestamp c4.timestamp .m1 := by
    simp only [isValidTimestamp, TIMEFRAME_MS, h4]; omega
  have hv5 : isValidTimestamp c5.timestamp .m1 := by
    simp only [isValidTimestamp, TIMEFRAME_MS, h5]; omega
  have hna0 : ¬ isTimeAligned c0.timestamp .m6 := by
    simp only [isTimeAligned, TIMEFRAME_MS, h0]; omega
  have hna1 : ¬ isTimeAligned c1.timestamp .m6 := by
    simp only [isTimeAligned, TIMEFRAME_MS, h1]; omega
  have hna2 : ¬ isTimeAligned c2.timestamp .m6 := by
    simp only [isTimeAligned, TIMEFRAME_MS, h2]; omega
  have hna3 : ¬ isTimeAligned c3.timestamp .m6 := by
    simp only [isTimeAligned, TIMEFRAME_MS, h3]; omega
  have hna4 : ¬ isTimeAligned c4.timestamp .m6 := by
    simp only [isTimeAligned, TIMEFRAME_MS, h4]; omega
  have ha5 : isTimeAligned c5.timestamp .m6 := by
    simp only [isTimeAligned, TIMEFRAME_MS, h5]; omega
  have hagg_ts : (aggregate [c0, c1, c2, c3, c4, c5]).timestamp = c0.timestamp := rfl
  have h24 : ¬ isTimeAligned (aggregate [c0, c1, c2, c3, c4, c5]).timestamp .m24 := by
    rw [hagg_ts]
    simp only [isTimeAligned, TIMEFRAME_MS, h0]; omega
  have e0 : handle1mCandle initialBuilder c0
      = (⟨[c0], [], some c0.timestamp, none⟩, [], []) := by
    rw [handle1m_push_only initialBuilder c0 hv0 hna0]
    simp [initialBuilder]
  have e1 : handle1mCandle ⟨[c0], [], some c0.timestamp, none⟩ c1
      = (⟨[c0, c1], [], some c1.timestamp, none⟩, [], []) := by
    rw [handle1m_push_only _ c1 hv1 hna1]
    simp
  have e2 : handle1mCandle ⟨[c0, c1], [], some c1.timestamp, none⟩ c2
      = (⟨[c0, c1, c2], [], some c2.timestamp, none⟩, [], []) := by
    rw [handle1m_push_only _ c2 hv2 hna2]
    simp
  have e3 : handle1mCandle ⟨[c0, c1, c2], [], some c2.timestamp, none⟩ c3
      = (⟨[c0, c1, c2, c3], [], some c3.timestamp, none⟩, [], []) := by
    rw [handle1m_push_only _ c3 hv3 hna3]
    simp
  have e4 : handle1mCandle ⟨[c0, c1, c2, c3], [], some c3.timestamp, none⟩ c4
      = (⟨[c0, c1, c2, c3, c4], [], some c4.timestamp, none⟩, [], []) := by
    rw [handle1m_push_only _ c4 hv4 hna4]
    simp
  have e5 : handle1mCandle ⟨[c0, c1, c2, c3, c4], [], some c4.timestamp, none⟩ c5
      = (⟨[], [aggregate [c0, c1, c2, c3, c4, c5]], some c5.timestamp,
            some c0.timestamp⟩,
          [aggregate [c0, c1, c2, c3, c4, c5]], []) := by
    simp only [handle1mCandle]
    rw [if_neg (not_not_intro hv5), if_neg (not_not_intro ha5)]
    simp only [List.cons_append, List.nil_append]
    rw [if_pos (show ([c0, c1, c2, c3, c4, c5] : List Candle).length
        = AGGREGATION_COUNT_1to6 from rfl)]
    simp only [handle6mCandle]
    rw [if_pos h24]
    simp [hagg_ts]
  refine ⟨?_, rfl, rfl, rfl, rfl, rfl,
    by simp only [aggregate, List.foldl]; ring,
    by simp only [aggregate, List.foldl]; ring⟩
  simp only [feed1m, List.foldl, e0, e1, e2, e3, e4, e5, List.nil_append,
    List.append_nil]

/-- Witness for C1 (amended): the concrete boundary-ending run at
`k = 0`. -/
theorem handle1m_six_contiguous_boundary_end_witness :
    (cAt 60000).timestamp = 360000 * 0 + 60000 ∧
    (feed1m initialBuilder
        [cAt 60000, cAt 120000, cAt 180000, cAt 240000, cAt 300000,
          cAt 360000]).2.1
      = [aggregate [cAt 60000, cAt 120000, cAt 180000, cAt 240000,
          cAt 300000, cAt 360000]] := by
  refine ⟨by decide, ?_⟩
  have h := handle1m_six_contiguous_boundary_end 0 (cAt 60000) (cAt 120000)
    (cAt 180000) (cAt 240000) (cAt 300000) (cAt 360000)
    (by decide) (by decide) (by decide) (by decide) (by decide) (by decide)
  rw [h.1]
